import Mathlib

/-!
# Verification of the cart-api core (Resto-APP)

Shallow embedding of the cart service's handlers (`internal/handlers/cart_handler.go`),
the event consumer wrapper (`pkg/reciever/message_reciever.go`), the order-api
checkout event handler (`UserCheckoutEventHandler.java`), and — where the
repository's own code is not available — the Cart Store / merge logic / order
completion handler modelled from the specification.

Machine integers are modelled as `Int` with explicit range checks where Go
performs them (`strconv.Atoi`). Fallible operations return `Except` / `Option`.
-/

set_option autoImplicit false

namespace RestoApp

/-! ## Data model (spec §3): Cart and LineItem -/

/-- Modelled from the spec: a line item has an `item_id` (integer), a
`quantity`, and item-specific attributes (name/price, opaque to the core).
The Go struct `models.LineItem` is not under the available sources. -/
structure LineItem where
  itemId : Int
  quantity : Int
  itemName : String
  price : Int
deriving DecidableEq, Repr

/-- Modelled from the spec: a Cart is identified by a unique `cart_id` string
and owns a collection of line items (`models.Cart` is not under the available
sources). -/
structure Cart where
  id : String
  lineItems : List LineItem
deriving DecidableEq, Repr

/-! ## Cart Store (spec §4.1), key-value persistence keyed by `cart_id`.
The Redis-backed `repositories.CartRepository` is not under the available
sources, so the store is modelled from the spec as an association list. -/

/-- One store entry per `cart_id`, value the serialized Cart (spec §6). -/
def CartStore := List (String × Cart)
deriving DecidableEq, Repr

/-- Modelled from the spec: `get(cart_id) -> Cart | NotFound` — fetch the
current snapshot; `none` plays the role of `ErrCartNotFound`. -/
def getCart : CartStore → String → Option Cart
  | [], _ => none
  | (k, c) :: rest, cid => if k = cid then some c else getCart rest cid

/-- Writes (or overwrites) the entry for a key: the store's upsert primitive. -/
def setCart : CartStore → String → Cart → CartStore
  | [], cid, cart => [(cid, cart)]
  | (k, c) :: rest, cid, cart =>
    if k = cid then (cid, cart) :: rest else (k, c) :: setCart rest cid cart

/-- Modelled from the spec: `update(Cart) -> ok | error` — full replace/create
(upsert by `cart_id`), no existence check at the repository level. -/
def updateRepo (s : CartStore) (cart : Cart) : CartStore :=
  setCart s cart.id cart

@[simp] theorem getCart_nil (cid : String) : getCart [] cid = none := rfl

theorem getCart_setCart_same (s : CartStore) (cid : String) (cart : Cart) :
    getCart (setCart s cid cart) cid = some cart := by
  induction s with
  | nil => simp [setCart, getCart]
  | cons hd tl ih =>
    obtain ⟨k, c⟩ := hd
    by_cases hk : k = cid
    · simp [setCart, getCart, hk]
    · simp [setCart, getCart, hk, ih]

theorem setCart_setCart_same (s : CartStore) (cid : String) (c1 c2 : Cart) :
    setCart (setCart s cid c1) cid c2 = setCart s cid c2 := by
  induction s with
  | nil => simp [setCart]
  | cons hd tl ih =>
    obtain ⟨k, c⟩ := hd
    by_cases hk : k = cid
    · simp [setCart, hk]
    · simp [setCart, hk, ih]

/-! ## Aggregate merge logic (spec §4.4) for `add_item` -/

/-- Modelled from the spec: quantity merge rule for `add_item` —
`new_quantity = existing_quantity + requested_quantity` when `item_id`
matches; otherwise append as a new entry preserving request-supplied
attributes. -/
def addItemToList : List LineItem → LineItem → List LineItem
  | [], item => [item]
  | li :: rest, item =>
    if li.itemId = item.itemId then
      { li with quantity := li.quantity + item.quantity } :: rest
    else
      li :: addItemToList rest item

/-- Modelled from the spec: the pure merge applied to a whole Cart value. -/
def addItemToCart (cart : Cart) (item : LineItem) : Cart :=
  { cart with lineItems := addItemToList cart.lineItems item }

/-- Total quantity carried by entries with a given `item_id`. -/
def qtyOf : List LineItem → Int → Int
  | [], _ => 0
  | li :: rest, id => (if li.itemId = id then li.quantity else 0) + qtyOf rest id

theorem qtyOf_addItemToList (l : List LineItem) (item : LineItem) :
    qtyOf (addItemToList l item) item.itemId = item.quantity + qtyOf l item.itemId := by
  induction l with
  | nil => simp [addItemToList, qtyOf]
  | cons li rest ih =>
    by_cases h : li.itemId = item.itemId
    · simp [addItemToList, qtyOf, h]
      try omega
    · simp [addItemToList, qtyOf, h, ih]
      try omega

theorem addItemToList_append (l : List LineItem) (item : LineItem)
    (h : ∀ li ∈ l, li.itemId ≠ item.itemId) :
    addItemToList l item = l ++ [item] := by
  induction l with
  | nil => simp [addItemToList]
  | cons li rest ih =>
    have hli : li.itemId ≠ item.itemId := h li (List.mem_cons_self li rest)
    simp [addItemToList, hli]
    exact ih fun x hx => h x (List.mem_cons_of_mem li hx)

/-! ## Remaining repository operations (spec §4.1), modelled from the spec
since `repositories.CartRepository` is not under the available sources. -/

/-- Repository-level errors: `notFound` models `repositories.ErrCartNotFound`
(and the item-not-found case of `update_item`). -/
inductive RepoError where
  | notFound
deriving DecidableEq, Repr

/-- Modelled from the spec: `update_item(cart_id, item_id, LineItem)` —
performs a full field replacement of the matched entry (the route in
`main.go` notes the body's item_id is ignored, the path item id is kept);
fails with `NotFound` if the cart or the item does not exist. -/
def updateItemRepo (s : CartStore) (cartId : String) (itemId : Int)
    (item : LineItem) : Except RepoError CartStore :=
  match getCart s cartId with
  | none => Except.error RepoError.notFound
  | some cart =>
    if cart.lineItems.any (fun li => li.itemId == itemId) then
      let replaced := cart.lineItems.map
        (fun li => if li.itemId = itemId then { item with itemId := itemId } else li)
      Except.ok (setCart s cartId { cart with lineItems := replaced })
    else
      Except.error RepoError.notFound

/-- Modelled from the spec: `delete_item(cart_id, item_id)` — removes the
item; idempotent. -/
def deleteItemRepo (s : CartStore) (cartId : String) (itemId : Int) :
    Except RepoError CartStore :=
  match getCart s cartId with
  | none => Except.ok s
  | some cart =>
    Except.ok (setCart s cartId
      { cart with lineItems := cart.lineItems.filter (fun li => li.itemId != itemId) })

/-- Modelled from the spec: `add_item(cart_id, LineItem)` — if an item with
the same `item_id` exists, quantities are summed; otherwise the item is
appended (an absent cart starts from an empty line-item collection, matching
the upsert-style store). -/
def addItemRepo (s : CartStore) (cartId : String) (item : LineItem) :
    Except RepoError CartStore :=
  match getCart s cartId with
  | none => Except.ok (setCart s cartId ⟨cartId, addItemToList [] item⟩)
  | some cart => Except.ok (setCart s cartId (addItemToCart cart item))

/-! ## `strconv.Atoi` (used by the UpdateItem/DeleteItem handlers)

Go's `strconv.Atoi(s)` is `ParseInt(s, 10, 64)` on a 64-bit platform: an
optional sign, a non-empty run of decimal digits, and a range check against
the signed 64-bit integers; anything else is an error. Strings are treated
as their character lists. -/

def digitsVal (ds : List Char) : Nat :=
  ds.foldl (fun acc c => acc * 10 + (c.toNat - 48)) 0

def atoiCore (neg : Bool) (ds : List Char) : Option Int :=
  if ds ≠ [] ∧ ds.all Char.isDigit then
    let v : Int := Int.ofNat (digitsVal ds)
    let sv : Int := if neg then -v else v
    if -(2 ^ 63) ≤ sv ∧ sv ≤ 2 ^ 63 - 1 then some sv else none
  else none

/-- `strconv.Atoi`: `some n` on success, `none` on a parse error. -/
def atoi : List Char → Option Int
  | '+' :: rest => atoiCore false rest
  | '-' :: rest => atoiCore true rest
  | s => atoiCore false s

/-! ## HTTP handlers (`internal/handlers/cart_handler.go`)

Each handler is embedded as a function from the decoded request parts and the
current store to an outcome: the `*models.HTTPError` it returns (by status
code), the resulting store, and the trace of repository calls it made. JSON
decoding is modelled by passing the decode result as an `Option` (`none` =
malformed body). -/

/-- A call made against the repository, in order. -/
inductive RepoCall where
  | getCall (cartId : String)
  | updateCall (cart : Cart)
  | deleteCall (cartId : String)
  | addItemCall (cartId : String) (item : LineItem)
  | updateItemCall (cartId : String) (itemId : Int) (item : LineItem)
  | deleteItemCall (cartId : String) (itemId : Int)
deriving DecidableEq, Repr

/-- Outcome of one handler invocation: the HTTP status of the returned
`models.HTTPError` (`none` = handler returned nil), the store afterwards, and
the repository calls made. -/
structure HResult where
  httpErr : Option Nat
  store : CartStore
  calls : List RepoCall
deriving DecidableEq, Repr

/-- Modelled from the spec: `models.CreateCartReq` and its mapping
`MapCreateCartReqToCart` (request-to-aggregate mapping, spec §4.4). -/
structure CreateCartReq where
  id : String
  items : List LineItem
deriving DecidableEq, Repr

def mapCreateCartReqToCart (req : CreateCartReq) : Cart :=
  ⟨req.id, req.items⟩

/-- Modelled from the spec: `models.UpdateCartReq` and
`MapUpdateCartReqToCart` — replace-whole-cart request body. -/
structure UpdateCartReq where
  items : List LineItem
deriving DecidableEq, Repr

def mapUpdateCartReqToCart (cart : Cart) (req : UpdateCartReq) : Cart :=
  ⟨cart.id, req.items⟩

/-- `CartHandler.Create` (cart_handler.go lines 62-84): decode body (400 on
failure), `repository.Update` with no prior existence check (400 on error),
re-`Get` the cart (400 on error), encode. -/
def createCartHandler (s : CartStore) (body : Option CreateCartReq) : HResult :=
  match body with
  | none => ⟨some 400, s, []⟩
  | some req =>
    let cart := mapCreateCartReqToCart req
    let s1 := updateRepo s cart
    match getCart s1 cart.id with
    | none => ⟨some 400, s1, [RepoCall.updateCall cart, RepoCall.getCall cart.id]⟩
    | some _ => ⟨none, s1, [RepoCall.updateCall cart, RepoCall.getCall cart.id]⟩

/-- `CartHandler.Update` (cart_handler.go lines 100-121): decode body (400 on
failure), `repository.Get` first — `ErrCartNotFound` becomes 404 — then map
the request onto the fetched cart and `repository.Update` it. -/
def updateCartHandler (s : CartStore) (cartId : String)
    (body : Option UpdateCartReq) : HResult :=
  match body with
  | none => ⟨some 400, s, []⟩
  | some req =>
    match getCart s cartId with
    | none => ⟨some 404, s, [RepoCall.getCall cartId]⟩
    | some cart =>
      let cartForUpdate := mapUpdateCartReqToCart cart req
      ⟨none, updateRepo s cartForUpdate,
        [RepoCall.getCall cartId, RepoCall.updateCall cartForUpdate]⟩

/-- `CartHandler.UpdateItem` (cart_handler.go lines 216-233): `Atoi` the
itemID path segment (400 on failure), decode body (400 on failure), then
`repository.UpdateItem` — ANY repository error, including not-found, is
returned as a 500 `StatusInternalServerError`. -/
def updateItemHandler (s : CartStore) (cartId : String) (itemIdPath : List Char)
    (body : Option LineItem) : HResult :=
  match atoi itemIdPath with
  | none => ⟨some 400, s, []⟩
  | some itemId =>
    match body with
    | none => ⟨some 400, s, []⟩
    | some entity =>
      match updateItemRepo s cartId itemId entity with
      | Except.error _ => ⟨some 500, s, [RepoCall.updateItemCall cartId itemId entity]⟩
      | Except.ok s1 => ⟨none, s1, [RepoCall.updateItemCall cartId itemId entity]⟩

/-- `CartHandler.DeleteItem` (cart_handler.go lines 249-262): `Atoi` the
itemID path segment (400 on failure), then `repository.DeleteItem` (500 on
any repository error). -/
def deleteItemHandler (s : CartStore) (cartId : String) (itemIdPath : List Char) :
    HResult :=
  match atoi itemIdPath with
  | none => ⟨some 400, s, []⟩
  | some itemId =>
    match deleteItemRepo s cartId itemId with
    | Except.error _ => ⟨some 500, s, [RepoCall.deleteItemCall cartId itemId]⟩
    | Except.ok s1 => ⟨none, s1, [RepoCall.deleteItemCall cartId itemId]⟩

/-! ## Order-Completion Handler (spec §4.3)

`events.NewOrderCompletedEventHandler` is not under the available sources;
modelled from the spec. -/

/-- An order-completion event carries an order identifier and the
originating cart identifier (spec §6). -/
structure OrderCompletedEvent where
  orderId : String
  cartId : String
deriving DecidableEq, Repr

/-- The terminal state transition: replace the cart's line items with the
empty collection; an absent cart is left absent. -/
def clearCart (s : CartStore) (cid : String) : CartStore :=
  match getCart s cid with
  | none => s
  | some cart => setCart s cid { cart with lineItems := [] }

/-- Modelled from the spec: `handle(event)` — resolve the cart
(`Cart Store.get`) and, if present, clear it; clearing an already-empty or
already-deleted cart is a no-op success, not a `NotFound` failure. -/
def handleOrderCompleted (s : CartStore) (ev : OrderCompletedEvent) :
    Except RepoError CartStore :=
  match getCart s ev.cartId with
  | none => Except.ok s
  | some cart => Except.ok (setCart s ev.cartId { cart with lineItems := [] })

/-! ## Event Consumer (`pkg/reciever/message_reciever.go`)

`ConsumeClaim` runs a select loop over the claim-scoped message channel and
the session context; `Recieve` runs the outer rejoin loop around
`consumer.Consume`. Both are embedded as functions over finite traces of
environment events. -/

/-- A consumed message (the wrapper forwards only the value). -/
structure Msg where
  value : String
deriving DecidableEq, Repr

/-- An error returned by a message handler or by `consumer.Consume`. -/
structure ConsumerError where
  message : String
deriving DecidableEq, Repr

/-- One event observed by `ConsumeClaim`'s select: a message arriving on the
claim channel, the channel closing, or the session context being done. -/
inductive ClaimEvent where
  | msgArrives (m : Msg)
  | channelClosed
  | ctxDone
deriving DecidableEq, Repr

/-- An observable action performed by `ConsumeClaim`, in program order. -/
inductive Action where
  | handleCall (m : Msg)
  | logError (m : Msg)
  | markMessage (m : Msg)
deriving DecidableEq, Repr

/-- `consumerGroupHandler.ConsumeClaim` (message_reciever.go lines 63-93):
for each arriving message, call `handler.Handle` synchronously; on error,
log it; then `session.MarkMessage` unconditionally; return when the channel
closes or the session context is done. The registered handler is modelled by
its outcome function `h` (`none` = success, `some e` = error). -/
def consumeClaim (h : Msg → Option ConsumerError) : List ClaimEvent → List Action
  | [] => []
  | ClaimEvent.msgArrives m :: rest =>
    match h m with
    | none => Action.handleCall m :: Action.markMessage m :: consumeClaim h rest
    | some _ =>
      Action.handleCall m :: Action.logError m :: Action.markMessage m :: consumeClaim h rest
  | ClaimEvent.channelClosed :: _ => []
  | ClaimEvent.ctxDone :: _ => []

/-- The messages the claim loop actually claims: those arriving before the
channel closes or the context is done. -/
def claimedMsgs : List ClaimEvent → List Msg
  | [] => []
  | ClaimEvent.msgArrives m :: rest => m :: claimedMsgs rest
  | ClaimEvent.channelClosed :: _ => []
  | ClaimEvent.ctxDone :: _ => []

/-- Projection: the messages marked (offset recorded for auto-commit). -/
def marksOf (as : List Action) : List Msg :=
  as.filterMap (fun a => match a with
    | Action.markMessage m => some m
    | _ => none)

/-- Projection: the messages dispatched to the handler. -/
def handleCallsOf (as : List Action) : List Msg :=
  as.filterMap (fun a => match a with
    | Action.handleCall m => some m
    | _ => none)

/-- Outcome of one `consumer.Consume` session as observed by `Recieve`:
the error `Consume` returned, and whether `ctx.Err() != nil` held when it
returned. -/
structure SessionOutcome where
  consumeErr : Option ConsumerError
  ctxCancelled : Bool
deriving DecidableEq, Repr

/-- `MessageReciever.Recieve` (message_reciever.go lines 33-49) over a finite
trace of session outcomes: each iteration calls `Consume`; a non-nil error
returns it; otherwise a cancelled context returns (with the nil error);
otherwise the loop rejoins. Result: number of `Consume` calls made, and
`some r` when the loop exited returning `r` (`none` while still looping when
the trace runs out). -/
def recieveRun : List SessionOutcome → Nat × Option (Option ConsumerError)
  | [] => (0, none)
  | s :: rest =>
    match s.consumeErr with
    | some e => (1, some (some e))
    | none =>
      if s.ctxCancelled then (1, some none)
      else
        let r := recieveRun rest
        (r.1 + 1, r.2)

/-- `cs` is an interleaving of `as` and `bs`: the cross-partition scheduling
freedom — each partition's dispatch order is preserved, nothing relates the
two. -/
inductive Interleaves : List Msg → List Msg → List Msg → Prop where
  | nil : Interleaves [] [] []
  | left {a : Msg} {as bs cs : List Msg} :
      Interleaves as bs cs → Interleaves (a :: as) bs (a :: cs)
  | right {b : Msg} {as bs cs : List Msg} :
      Interleaves as bs cs → Interleaves as (b :: bs) (b :: cs)

/-! ## order-api checkout event handler (`UserCheckoutEventHandler.java`)

`Handle` is a manual-acknowledgment consumer: `try { log; checkout; return
ack } catch { log; return nack(e) }`. The business call is modelled by its
outcome. -/

/-- An observable step of `UserCheckoutEventHandler.Handle`, in program
order. -/
inductive JAction where
  | logInfo
  | callCheckout
  | ack
  | logErr
  | nack (e : String)
deriving DecidableEq, Repr

/-- `UserCheckoutEventHandler.Handle` (lines 33-43): the action trace as a
function of the checkout call's outcome (`Except.error e` = `Checkout`
threw `e`). -/
def checkoutHandle (r : Except String Unit) : List JAction :=
  match r with
  | Except.ok _ => [JAction.logInfo, JAction.callCheckout, JAction.ack]
  | Except.error e =>
    [JAction.logInfo, JAction.callCheckout, JAction.logErr, JAction.nack e]

/-! ## `ErrorHandler` wrapper (`cart_handler.go` lines 36-47)

The wrapper runs the inner handler; if it returned an error that
`errors.As` matches to `*models.HTTPError`, it calls `http.Error` with that
code; any other error is ignored; then it calls `w.WriteHeader(200)`
unconditionally. -/

/-- The error value an inner handler returned: a `*models.HTTPError`
(possibly wrapped — `errors.As` still matches), or any other error. -/
inductive GoErr where
  | httpError (code : Nat) (msg : String)
  | plainError (msg : String)
deriving DecidableEq, Repr

/-- A call the wrapper makes on the `http.ResponseWriter`. -/
inductive WriterCall where
  | httpErrorWrite (msg : String) (code : Nat)
  | writeHeader (code : Nat)
deriving DecidableEq, Repr

/-- `ErrorHandler`: the writer calls it performs, as a function of the inner
handler's returned error. -/
def errorHandler (res : Option GoErr) : List WriterCall :=
  (match res with
   | some (GoErr.httpError code msg) => [WriterCall.httpErrorWrite msg code]
   | some (GoErr.plainError _) => []
   | none => []) ++ [WriterCall.writeHeader 200]

/-- net/http semantics: the status actually sent is fixed by the first
status-writing call (`http.Error` writes its code; a later `WriteHeader` is
superfluous and ignored); 200 if the handler wrote nothing. -/
def effectiveStatus (calls : List WriterCall) : Nat :=
  match calls with
  | [] => 200
  | WriterCall.httpErrorWrite _ code :: _ => code
  | WriterCall.writeHeader code :: _ => code

/-! ## Claim theorems -/

theorem qtyOf_addItemToList_of_eq (l : List LineItem) (item : LineItem) (id : Int)
    (h : item.itemId = id) :
    qtyOf (addItemToList l item) id = item.quantity + qtyOf l id :=
  h ▸ qtyOf_addItemToList l item

/-- C3: `add_item` sums quantities on a matching `item_id` and is commutative
in total quantity — adding X with quantity a then quantity b yields the same
final quantity for X as adding X once with quantity (a+b); when no item with
that `item_id` exists, the item is appended as a new entry preserving the
request-supplied attributes. -/
theorem addItem_quantity_merge_commutative :
    (∀ (cart : Cart) (i1 i2 i3 : LineItem),
        i1.itemId = i3.itemId → i2.itemId = i3.itemId →
        i3.quantity = i1.quantity + i2.quantity →
        qtyOf (addItemToCart (addItemToCart cart i1) i2).lineItems i3.itemId =
          qtyOf (addItemToCart cart i3).lineItems i3.itemId) ∧
    (∀ (cart : Cart) (item : LineItem),
        (∀ li ∈ cart.lineItems, li.itemId ≠ item.itemId) →
        addItemToCart cart item = { cart with lineItems := cart.lineItems ++ [item] }) := by
  constructor
  · intro cart i1 i2 i3 h1 h2 hq
    show qtyOf (addItemToList (addItemToList cart.lineItems i1) i2) i3.itemId =
      qtyOf (addItemToList cart.lineItems i3) i3.itemId
    rw [qtyOf_addItemToList_of_eq _ i2 _ h2, qtyOf_addItemToList_of_eq _ i1 _ h1,
      qtyOf_addItemToList_of_eq _ i3 _ rfl]
    omega
  · intro cart item h
    show ({ cart with lineItems := addItemToList cart.lineItems item } : Cart) = _
    rw [addItemToList_append cart.lineItems item h]

/-- Witness for C3 at concrete inputs (scenario 1 of the spec):
adding quantity 2 then 3 of item 10 equals adding quantity 5 once, and
adding an item to an empty cart appends it. -/
theorem addItem_quantity_merge_commutative_witness :
    ((10 : Int) = (10 : Int) ∧ (10 : Int) = (10 : Int) ∧ (5 : Int) = 2 + 3 ∧
      qtyOf (addItemToCart (addItemToCart ⟨"cart1", []⟩ ⟨10, 2, "burger", 7⟩)
          ⟨10, 3, "burger", 7⟩).lineItems 10 =
        qtyOf (addItemToCart ⟨"cart1", []⟩ ⟨10, 5, "burger", 7⟩).lineItems 10) ∧
    addItemToCart ⟨"cart1", []⟩ ⟨10, 2, "burger", 7⟩ =
      ⟨"cart1", [] ++ [⟨10, 2, "burger", 7⟩]⟩ := by
  constructor
  · exact ⟨rfl, rfl, by decide,
      addItem_quantity_merge_commutative.1 ⟨"cart1", []⟩ ⟨10, 2, "burger", 7⟩
        ⟨10, 3, "burger", 7⟩ ⟨10, 5, "burger", 7⟩ rfl rfl (by decide)⟩
  · exact addItem_quantity_merge_commutative.2 ⟨"cart1", []⟩ ⟨10, 2, "burger", 7⟩
      (by simp)

/-- C4: order-completion handling is idempotent — processing the same
completion event twice succeeds both times and leaves the cart in the
identical cleared state; clearing an already-deleted cart is a no-op
success, never a NotFound failure. -/
theorem orderCompletion_idempotent :
    ∀ (s : CartStore) (ev : OrderCompletedEvent),
      handleOrderCompleted s ev = Except.ok (clearCart s ev.cartId) ∧
      handleOrderCompleted (clearCart s ev.cartId) ev = Except.ok (clearCart s ev.cartId) ∧
      (getCart s ev.cartId = none → handleOrderCompleted s ev = Except.ok s) := by
  intro s ev
  refine ⟨?_, ?_, ?_⟩
  · unfold handleOrderCompleted clearCart
    cases h : getCart s ev.cartId <;> simp
  · unfold clearCart
    cases h : getCart s ev.cartId with
    | none => simp [handleOrderCompleted, h]
    | some cart =>
      unfold handleOrderCompleted
      rw [getCart_setCart_same]
      simp [setCart_setCart_same]
  · intro h
    simp [handleOrderCompleted, h]

/-- Witness for C4: completing twice on a one-item cart clears it both times
with the identical result, and completing against an absent cart succeeds
unchanged. -/
theorem orderCompletion_idempotent_witness :
    (handleOrderCompleted [("c1", ⟨"c1", [⟨10, 2, "burger", 7⟩]⟩)] ⟨"o1", "c1"⟩ =
        Except.ok (clearCart [("c1", ⟨"c1", [⟨10, 2, "burger", 7⟩]⟩)] "c1") ∧
      handleOrderCompleted (clearCart [("c1", ⟨"c1", [⟨10, 2, "burger", 7⟩]⟩)] "c1") ⟨"o1", "c1"⟩ =
        Except.ok (clearCart [("c1", ⟨"c1", [⟨10, 2, "burger", 7⟩]⟩)] "c1")) ∧
    (getCart [] "c1" = none ∧ handleOrderCompleted [] ⟨"o1", "c1"⟩ = Except.ok []) := by
  refine ⟨⟨?_, ?_⟩, rfl, ?_⟩
  · exact (orderCompletion_idempotent [("c1", ⟨"c1", [⟨10, 2, "burger", 7⟩]⟩)] ⟨"o1", "c1"⟩).1
  · exact (orderCompletion_idempotent [("c1", ⟨"c1", [⟨10, 2, "burger", 7⟩]⟩)] ⟨"o1", "c1"⟩).2.1
  · exact (orderCompletion_idempotent [] ⟨"o1", "c1"⟩).2.2 rfl

/-- C5: for every consumed message a handler error is non-fatal — the loop
marks the failed message's offset exactly as on success (marks are
independent of the handler's outcomes and cover every claimed message), each
claimed message is dispatched exactly once (no redelivery by the loop), and
processing continues with the next message. -/
theorem consumeClaim_handler_error_nonfatal :
    ∀ (h : Msg → Option ConsumerError) (evs : List ClaimEvent),
      marksOf (consumeClaim h evs) = claimedMsgs evs ∧
      handleCallsOf (consumeClaim h evs) = claimedMsgs evs := by
  intro h evs
  induction evs with
  | nil => simp [consumeClaim, claimedMsgs, marksOf, handleCallsOf]
  | cons e rest ih =>
    simp only [marksOf, handleCallsOf] at ih
    cases e with
    | msgArrives m =>
      cases hm : h m <;>
        simp [consumeClaim, claimedMsgs, marksOf, handleCallsOf, hm, ih.1, ih.2]
    | channelClosed => simp [consumeClaim, claimedMsgs, marksOf, handleCallsOf]
    | ctxDone => simp [consumeClaim, claimedMsgs, marksOf, handleCallsOf]

/-- C6: within a claim, messages are dispatched synchronously one at a time
and in exactly channel order (the action trace is the per-message blocks
handle-[log]-mark, concatenated in message order, with no hand-off), while
across partitions both interleavings of two singleton claims are possible,
so no cross-partition ordering holds. -/
theorem consumeClaim_dispatch_in_order_synchronous :
    (∀ (h : Msg → Option ConsumerError) (evs : List ClaimEvent),
        consumeClaim h evs = (claimedMsgs evs).flatMap (fun m =>
          match h m with
          | none => [Action.handleCall m, Action.markMessage m]
          | some _ => [Action.handleCall m, Action.logError m, Action.markMessage m])) ∧
    (∃ c1 c2 : List Msg,
        Interleaves [⟨"m1"⟩] [⟨"n1"⟩] c1 ∧ Interleaves [⟨"m1"⟩] [⟨"n1"⟩] c2 ∧ c1 ≠ c2) := by
  constructor
  · intro h evs
    induction evs with
    | nil => simp [consumeClaim, claimedMsgs]
    | cons e rest ih =>
      cases e with
      | msgArrives m =>
        cases hm : h m <;> simp [consumeClaim, claimedMsgs, hm, ih]
      | channelClosed => simp [consumeClaim, claimedMsgs]
      | ctxDone => simp [consumeClaim, claimedMsgs]
  · refine ⟨[⟨"m1"⟩, ⟨"n1"⟩], [⟨"n1"⟩, ⟨"m1"⟩],
      Interleaves.left (Interleaves.right Interleaves.nil),
      Interleaves.right (Interleaves.left Interleaves.nil), ?_⟩
    simp

/-- C7: once the cancellation context is signaled the outer `Recieve` loop
exits after the current `Consume` iteration and makes no further `Consume`
calls, returning the (nil) error; a fatal `Consume` error propagates out to
the caller; and in-flight handling always finishes — every message that was
dispatched is also marked, never cut off mid-message. -/
theorem recieve_cancellation_and_error_propagation :
    (∀ (pre : List SessionOutcome) (s : SessionOutcome) (rest : List SessionOutcome),
        (∀ t ∈ pre, t.consumeErr = none ∧ t.ctxCancelled = false) →
        s.consumeErr = none → s.ctxCancelled = true →
        recieveRun (pre ++ s :: rest) = (pre.length + 1, some none)) ∧
    (∀ (pre : List SessionOutcome) (s : SessionOutcome) (rest : List SessionOutcome)
        (e : ConsumerError),
        (∀ t ∈ pre, t.consumeErr = none ∧ t.ctxCancelled = false) →
        s.consumeErr = some e →
        recieveRun (pre ++ s :: rest) = (pre.length + 1, some (some e))) ∧
    (∀ (h : Msg → Option ConsumerError) (evs : List ClaimEvent) (m : Msg),
        Action.handleCall m ∈ consumeClaim h evs →
        Action.markMessage m ∈ consumeClaim h evs) := by
  refine ⟨?_, ?_, ?_⟩
  · intro pre s rest hpre hs hc
    induction pre with
    | nil => simp [recieveRun, hs, hc]
    | cons t tl ih =>
      have ht := hpre t (List.mem_cons_self t tl)
      have htl : ∀ x ∈ tl, x.consumeErr = none ∧ x.ctxCancelled = false :=
        fun x hx => hpre x (List.mem_cons_of_mem t hx)
      simp [recieveRun, ht.1, ht.2, ih htl]
  · intro pre s rest e hpre hs
    induction pre with
    | nil => simp [recieveRun, hs]
    | cons t tl ih =>
      have ht := hpre t (List.mem_cons_self t tl)
      have htl : ∀ x ∈ tl, x.consumeErr = none ∧ x.ctxCancelled = false :=
        fun x hx => hpre x (List.mem_cons_of_mem t hx)
      simp [recieveRun, ht.1, ht.2, ih htl]
  · intro h evs m hmem
    induction evs with
    | nil => simp [consumeClaim] at hmem
    | cons e rest ih =>
      cases e with
      | msgArrives m2 =>
        cases hm : h m2 <;> simp [consumeClaim, hm] at hmem ⊢ <;>
          rcases hmem with hmem | hmem <;> simp [hmem, ih]
      | channelClosed => simp [consumeClaim] at hmem
      | ctxDone => simp [consumeClaim] at hmem

/-- Witness for C7: a cancelled first session exits the loop after exactly
one `Consume` call even with further sessions available; a failing first
session returns its error; a dispatched message is marked. -/
theorem recieve_cancellation_and_error_propagation_witness :
    recieveRun [⟨none, true⟩, ⟨none, false⟩] = (1, some none) ∧
    recieveRun [⟨some ⟨"broker unreachable"⟩, false⟩] =
      (1, some (some ⟨"broker unreachable"⟩)) ∧
    Action.markMessage ⟨"m"⟩ ∈ consumeClaim (fun _ => none) [ClaimEvent.msgArrives ⟨"m"⟩] := by
  refine ⟨?_, ?_, ?_⟩
  · exact recieve_cancellation_and_error_propagation.1 [] ⟨none, true⟩ [⟨none, false⟩]
      (by simp) rfl rfl
  · exact recieve_cancellation_and_error_propagation.2.1 [] ⟨some ⟨"broker unreachable"⟩, false⟩
      [] ⟨"broker unreachable"⟩ (by simp) rfl
  · exact recieve_cancellation_and_error_propagation.2.2 (fun _ => none)
      [ClaimEvent.msgArrives ⟨"m"⟩] ⟨"m"⟩ (by simp [consumeClaim])

/-- C8: the manual-acknowledgment checkout event handler acks exactly when
the checkout business call returns without throwing, nacks with the thrown
exception exactly when it throws, and never both acks and nacks the same
message. -/
theorem checkoutHandle_ack_iff_success :
    ∀ (r : Except String Unit),
      (JAction.ack ∈ checkoutHandle r ↔ r = Except.ok ()) ∧
      (∀ e : String, JAction.nack e ∈ checkoutHandle r ↔ r = Except.error e) ∧
      ¬(JAction.ack ∈ checkoutHandle r ∧ ∃ e, JAction.nack e ∈ checkoutHandle r) := by
  intro r
  cases r with
  | ok u => cases u; simp [checkoutHandle]
  | error e =>
    simp [checkoutHandle]
    intro x
    exact eq_comm

/-- C9: for every handler wrapped by `ErrorHandler`, a returned error that is
not a `*models.HTTPError` produces no error write — the response completes
with status 200 (the error is silently swallowed) — and even when an
`HTTPError` status is written, the wrapper still invokes `WriteHeader(200)`
unconditionally afterwards. -/
theorem errorHandler_swallows_and_always_writes_200 :
    (∀ msg : String,
        errorHandler (some (GoErr.plainError msg)) = [WriterCall.writeHeader 200] ∧
        effectiveStatus (errorHandler (some (GoErr.plainError msg))) = 200) ∧
    (∀ (code : Nat) (msg : String),
        errorHandler (some (GoErr.httpError code msg)) =
          [WriterCall.httpErrorWrite msg code, WriterCall.writeHeader 200] ∧
        WriterCall.writeHeader 200 ∈ errorHandler (some (GoErr.httpError code msg))) := by
  constructor
  · intro msg
    exact ⟨rfl, rfl⟩
  · intro code msg
    exact ⟨rfl, by simp [errorHandler]⟩

/-- C10: an update_item or delete_item request whose itemID path segment is
not a decimal integer gets HTTP 400 with no repository operation invoked, so
the stored cart state is unchanged. -/
theorem invalid_itemID_400_before_any_repo_call :
    ∀ (s : CartStore) (cartId : String) (itemIdPath : List Char) (body : Option LineItem),
      atoi itemIdPath = none →
      updateItemHandler s cartId itemIdPath body = ⟨some 400, s, []⟩ ∧
      deleteItemHandler s cartId itemIdPath = ⟨some 400, s, []⟩ := by
  intro s cid p body h
  constructor
  · simp [updateItemHandler, h]
  · simp [deleteItemHandler, h]

/-- Witness for C10 at the non-numeric path segment "abc". -/
theorem invalid_itemID_400_before_any_repo_call_witness :
    atoi ['a', 'b', 'c'] = none ∧
    updateItemHandler [] "c1" ['a', 'b', 'c'] (some ⟨10, 2, "burger", 7⟩) =
      ⟨some 400, [], []⟩ ∧
    deleteItemHandler [] "c1" ['a', 'b', 'c'] = ⟨some 400, [], []⟩ := by
  refine ⟨by decide, ?_, ?_⟩
  · exact (invalid_itemID_400_before_any_repo_call [] "c1" ['a', 'b', 'c']
      (some ⟨10, 2, "burger", 7⟩) (by decide)).1
  · exact (invalid_itemID_400_before_any_repo_call [] "c1" ['a', 'b', 'c']
      (some ⟨10, 2, "burger", 7⟩) (by decide)).2

/-- C1 (code behavior at the failing input class): with a well-formed itemID
and body, `UpdateItem` maps EVERY repository failure — including the cart or
item being absent — to HTTP 500, never 404: the absent-cart and absent-item
cases both yield `some 500`. -/
theorem updateItem_absence_surfaces_500 :
    (∀ (s : CartStore) (cartId : String) (itemIdPath : List Char) (n : Int)
        (item : LineItem),
        atoi itemIdPath = some n →
        getCart s cartId = none →
        updateItemHandler s cartId itemIdPath (some item) =
          ⟨some 500, s, [RepoCall.updateItemCall cartId n item]⟩) ∧
    (∀ (s : CartStore) (cartId : String) (itemIdPath : List Char) (n : Int)
        (item : LineItem) (cart : Cart),
        atoi itemIdPath = some n →
        getCart s cartId = some cart →
        cart.lineItems.any (fun li => li.itemId == n) = false →
        updateItemHandler s cartId itemIdPath (some item) =
          ⟨some 500, s, [RepoCall.updateItemCall cartId n item]⟩) := by
  constructor
  · intro s cid p n item hp hg
    simp [updateItemHandler, hp, updateItemRepo, hg]
  · intro s cid p n item cart hp hg hno
    simp [updateItemHandler, hp, updateItemRepo, hg, hno]

/-- Witness for C1: `PUT /cart/c1/item/10` against an empty store, and
against a store whose cart c1 lacks item 10, both report 500. -/
theorem updateItem_absence_surfaces_500_witness :
    updateItemHandler [] "c1" ['1', '0'] (some ⟨10, 2, "burger", 7⟩) =
      ⟨some 500, [], [RepoCall.updateItemCall "c1" 10 ⟨10, 2, "burger", 7⟩]⟩ ∧
    updateItemHandler [("c1", ⟨"c1", [⟨99, 1, "cola", 3⟩]⟩)] "c1" ['1', '0']
        (some ⟨10, 2, "burger", 7⟩) =
      ⟨some 500, [("c1", ⟨"c1", [⟨99, 1, "cola", 3⟩]⟩)],
        [RepoCall.updateItemCall "c1" 10 ⟨10, 2, "burger", 7⟩]⟩ := by
  constructor
  · exact updateItem_absence_surfaces_500.1 [] "c1" ['1', '0'] 10
      ⟨10, 2, "burger", 7⟩ (by decide) rfl
  · exact updateItem_absence_surfaces_500.2 [("c1", ⟨"c1", [⟨99, 1, "cola", 3⟩]⟩)]
      "c1" ['1', '0'] 10 ⟨10, 2, "burger", 7⟩ ⟨"c1", [⟨99, 1, "cola", 3⟩]⟩
      (by decide) rfl (by decide)

/-- C2 counterexample: a client update (PUT, full cart replace) applied to a
non-existent key does NOT create the cart — it fails with 404 and leaves the
store unchanged, refuting the claim that update acts as an upsert at both
entry points. -/
theorem update_nonexistent_cart_fails_cex :
    (updateCartHandler [] "cart1" (some ⟨[⟨10, 2, "burger", 7⟩]⟩)).httpErr = some 404 ∧
    (updateCartHandler [] "cart1" (some ⟨[⟨10, 2, "burger", 7⟩]⟩)).store = [] ∧
    getCart (updateCartHandler [] "cart1" (some ⟨[⟨10, 2, "burger", 7⟩]⟩)).store
      "cart1" = none := by
  exact ⟨rfl, rfl, rfl⟩

/-- C2 amended: the create entry point (POST /cart) performs the repository
upsert with no existence check — it succeeds on any store, writing before any
read — while the update entry point (PUT /cart/{id}) fetches the cart first
and fails with 404 on a non-existent key, leaving the store unchanged. -/
theorem create_upserts_update_checks_existence :
    (∀ (s : CartStore) (req : CreateCartReq),
        createCartHandler s (some req) =
          ⟨none, updateRepo s (mapCreateCartReqToCart req),
            [RepoCall.updateCall (mapCreateCartReqToCart req),
             RepoCall.getCall (mapCreateCartReqToCart req).id]⟩ ∧
        getCart (createCartHandler s (some req)).store req.id =
          some (mapCreateCartReqToCart req)) ∧
    (∀ (s : CartStore) (cartId : String) (req : UpdateCartReq),
        getCart s cartId = none →
        updateCartHandler s cartId (some req) =
          ⟨some 404, s, [RepoCall.getCall cartId]⟩) := by
  constructor
  · intro s req
    constructor
    · simp [createCartHandler, updateRepo, getCart_setCart_same]
    · simp [createCartHandler, updateRepo, getCart_setCart_same, mapCreateCartReqToCart]
  · intro s cid req h
    simp [updateCartHandler, h]

/-- Witness for C2's amended claim: POST creates cart "cart1" in an empty
store; PUT on the absent key "cart2" returns 404 unchanged. -/
theorem create_upserts_update_checks_existence_witness :
    getCart (createCartHandler [] (some ⟨"cart1", [⟨10, 2, "burger", 7⟩]⟩)).store
      "cart1" = some ⟨"cart1", [⟨10, 2, "burger", 7⟩]⟩ ∧
    updateCartHandler [] "cart2" (some ⟨[⟨10, 2, "burger", 7⟩]⟩) =
      ⟨some 404, [], [RepoCall.getCall "cart2"]⟩ := by
  constructor
  · exact (create_upserts_update_checks_existence.1 [] ⟨"cart1", [⟨10, 2, "burger", 7⟩]⟩).2
  · exact create_upserts_update_checks_existence.2 [] "cart2" ⟨[⟨10, 2, "burger", 7⟩]⟩ rfl

end RestoApp
